import Mathlib

/-!
Shallow embedding of the `as-misc` web toolkit core: the URL parser
(`WebURL.from`, `WebURL.parseSearchParams` in `src/assembly/web/web_url.ts`)
and the route matcher (`WebRoute.match` in the web router source).

Strings are modelled as `List Char` (AssemblyScript strings are JS strings;
we work at the code-point level).  The JS string primitives used by the
source (`indexOf`, `substring`, `split`, `trim`, `startsWith`, `endsWith`,
`charAt`/`charCodeAt`, `toLowerCase`) are defined below with JS semantics
restricted to the inputs the source feeds them (`toLowerCase` is modelled as
ASCII lowercasing; `trim` removes ASCII whitespace).  The ordered string map
`SMap` (a `Map<string, string>`) is modelled as an insertion-ordered
association list with update-in-place `set`.  Fallible operations
(`decodeURIComponent`, which throws `URIError` on malformed input) return
`Option`.
-/

/-- Strings of the embedded programs: sequences of code points. -/
abbrev Str := List Char

/-- Converts a Lean string literal into the embedded string type. -/
def str (s : String) : Str := s.data

/-- JS `String.prototype.indexOf` for a single-character needle:
first index of `c` in `s`, or `-1` when absent. -/
def findIdxC : Str → Char → Option Nat
  | [], _ => none
  | a :: rest, c => if a = c then some 0 else (findIdxC rest c).map (fun n => n + 1)

/-- JS `indexOf` (single character), returning `-1` for "not found". -/
def jsIndexOfC (s : Str) (c : Char) : Int :=
  match findIdxC s c with
  | some n => (n : Int)
  | none => -1

/-- First index at which `sub` occurs as a substring of `s` (JS `indexOf`). -/
def findIdxS (sub : Str) : Str → Option Nat
  | [] => if sub.isPrefixOf ([] : Str) then some 0 else none
  | a :: rest =>
    if sub.isPrefixOf (a :: rest) then some 0
    else (findIdxS sub rest).map (fun n => n + 1)

/-- JS `indexOf` (substring needle), returning `-1` for "not found". -/
def jsIndexOfS (s sub : Str) : Int :=
  match findIdxS sub s with
  | some n => (n : Int)
  | none => -1

/-- JS `String.prototype.substring s a b`: clamps both indices to the string
length and swaps them when `a > b`. -/
def jsSubstring (s : Str) (a b : Nat) : Str :=
  let a' := min a s.length
  let b' := min b s.length
  (s.take (max a' b')).drop (min a' b')

/-- JS `String.prototype.split` with a single-character separator.
`""` splits to `[""]`. -/
def splitC (s : Str) (c : Char) : List Str :=
  match s with
  | [] => [[]]
  | a :: rest =>
    let r := splitC rest c
    if a = c then [] :: r
    else
      match r with
      | [] => [[a]]
      | hd :: tl => (a :: hd) :: tl

/-- ASCII whitespace predicate used to model JS `trim`. -/
def wsp (c : Char) : Bool := c.isWhitespace

/-- JS `String.prototype.trim` (modelled on ASCII whitespace): removes
leading and trailing whitespace. -/
def jsTrim (s : Str) : Str :=
  ((s.dropWhile wsp).reverse.dropWhile wsp).reverse

/-- Hexadecimal digit value of a character, both cases accepted
(as in ECMA-262 URI decoding). -/
def hexVal (c : Char) : Option Nat :=
  if '0' ≤ c ∧ c ≤ '9' then some (c.toNat - 48)
  else if 'a' ≤ c ∧ c ≤ 'f' then some (c.toNat - 87)
  else if 'A' ≤ c ∧ c ≤ 'F' then some (c.toNat - 55)
  else none

/-- Lowercase hexadecimal digit (JS `Number.prototype.toString(16)`). -/
def hexDigit (n : Nat) : Char :=
  if n < 10 then Char.ofNat (48 + n) else Char.ofNat (87 + n)

/-- The token stream of ECMA-262 `Decode`: unescaped characters pass
through, each `%XX` escape contributes one byte. -/
inductive UriTok where
  | ch (c : Char)
  | byte (b : Nat)
deriving DecidableEq

/-- Tokenizes a string for URI decoding.  A `%` not followed by two
hexadecimal digits is malformed (`none`, modelling a thrown `URIError`). -/
def uriTokens : Str → Option (List UriTok)
  | [] => some []
  | '%' :: h1 :: h2 :: rest =>
    match hexVal h1, hexVal h2 with
    | some a, some b => (uriTokens rest).map (fun t => UriTok.byte (16 * a + b) :: t)
    | _, _ => none
  | '%' :: _ => none
  | c :: rest => (uriTokens rest).map (fun t => UriTok.ch c :: t)

/-- Decodes the UTF-8 byte runs in a URI token stream (ECMA-262 `Decode`
with an empty reserved set): invalid leading bytes, missing or invalid
continuation bytes, overlong encodings, surrogates and out-of-range code
points are all malformed (`none`). -/
def decodeToks : List UriTok → Option Str
  | [] => some []
  | UriTok.ch c :: rest => (decodeToks rest).map (fun t => c :: t)
  | UriTok.byte b :: rest =>
    if b < 128 then (decodeToks rest).map (fun t => Char.ofNat b :: t)
    else if 192 ≤ b ∧ b ≤ 223 then
      match rest with
      | UriTok.byte b2 :: rest2 =>
        if 128 ≤ b2 ∧ b2 ≤ 191 then
          let cp := (b - 192) * 64 + (b2 - 128)
          if 128 ≤ cp then (decodeToks rest2).map (fun t => Char.ofNat cp :: t)
          else none
        else none
      | _ => none
    else if 224 ≤ b ∧ b ≤ 239 then
      match rest with
      | UriTok.byte b2 :: UriTok.byte b3 :: rest3 =>
        if (128 ≤ b2 ∧ b2 ≤ 191) ∧ (128 ≤ b3 ∧ b3 ≤ 191) then
          let cp := (b - 224) * 4096 + (b2 - 128) * 64 + (b3 - 128)
          if 2048 ≤ cp ∧ ¬ (55296 ≤ cp ∧ cp ≤ 57343) then
            (decodeToks rest3).map (fun t => Char.ofNat cp :: t)
          else none
        else none
      | _ => none
    else if 240 ≤ b ∧ b ≤ 247 then
      match rest with
      | UriTok.byte b2 :: UriTok.byte b3 :: UriTok.byte b4 :: rest4 =>
        if (128 ≤ b2 ∧ b2 ≤ 191) ∧ (128 ≤ b3 ∧ b3 ≤ 191) ∧ (128 ≤ b4 ∧ b4 ≤ 191) then
          let cp := (b - 240) * 262144 + (b2 - 128) * 4096 + (b3 - 128) * 64 + (b4 - 128)
          if 65536 ≤ cp ∧ cp ≤ 1114111 then
            (decodeToks rest4).map (fun t => Char.ofNat cp :: t)
          else none
        else none
      | _ => none
    else none

/-- JS `decodeURIComponent`, which AssemblyScript implements per ECMA-262:
`none` models the `URIError` abort on malformed input. -/
def decodeURIComponent (s : Str) : Option Str :=
  (uriTokens s).bind decodeToks

/-- The ordered string map `SMap` (a `Map<string, string>`):
insertion-ordered association list with unique keys. -/
abbrev SMap := List (Str × Str)

/-- `Map.set`: updates the value in place when the key exists, otherwise
appends the new pair (JS `Map` insertion-order semantics). -/
def smapSet : SMap → Str → Str → SMap
  | [], k, v => [(k, v)]
  | (k', v') :: rest, k, v =>
    if k' = k then (k', v) :: rest else (k', v') :: smapSet rest k v

/-- The structured URL value produced by the parser
(`WebURL` in `src/assembly/web/web_url.ts`). -/
structure WebURL where
  protocol : Str
  username : Str
  password : Str
  href : Str
  origin : Str
  host : Str
  port : Int
  hostname : Str
  pathname : Str
  search : Str
  searchParams : SMap
  hash : Str
  isValid : Bool
deriving DecidableEq

/-- The `WebURL` constructor: `hostname` is derived as `host:port`. -/
def WebURL.make (protocol username password href origin host : Str) (port : Int)
    (pathname search : Str) (searchParams : SMap) (hash : Str) (isValid : Bool) :
    WebURL :=
  { protocol := protocol, username := username, password := password,
    href := href, origin := origin, host := host, port := port,
    hostname := host ++ ':' :: (toString port).data,
    pathname := pathname, search := search, searchParams := searchParams,
    hash := hash, isValid := isValid }

/-- The default-constructed `new WebURL()`: every field in its zero/empty
state, `isValid = false`. -/
def WebURL.invalid : WebURL :=
  WebURL.make [] [] [] [] [] [] 0 [] [] [] [] false

/-- Loop body of `WebURL.parseSearchParams`: processes the `&`-separated
tokens in order (`i` is the token index; the leading `?` is stripped from
the first token only). -/
def parseSearchParamsLoop : List Str → Nat → SMap → SMap
  | [], _, result => result
  | param :: rest, i, result =>
    let separator : Int := jsIndexOfC param '='
    let key := jsSubstring param
      (if i = 0 ∧ (str "?").isPrefixOf param then 1 else 0)
      (if separator ≥ 0 then separator.toNat else param.length)
    let value := if separator ≥ 0 then
        jsSubstring param (separator.toNat + 1) param.length
      else []
    parseSearchParamsLoop rest (i + 1)
      (smapSet result (if key.length > 0 then key else []) value)

/-- `WebURL.parseSearchParams`: splits the query text on `&`, then each
token on its first `=` (`key` before, `value` after; no `=` means empty
value), inserting pairs in token order. -/
def WebURL.parseSearchParams (value : Str) : SMap :=
  parseSearchParamsLoop (splitC value '&') 0 []

/-- The allow-list LUT of path characters (`tcpCharset`): its first 16
entries double as the hexadecimal digit table. -/
def tcpCharset : Str := str "0123456789abcdefghijklmnopqrstuvwxyz-_.~"

/-- The per-character path-segment scan of `WebURL.from` (lines 385-453):
state is the percent-escape mode flag, the escape cursor, the two stored
hex-digit values and the re-encoded accumulator.  `none` models the
invalidating early returns.  Note the source never leaves percent mode and
never re-emits the consumed escape characters. -/
def formatPathGo : Str → Bool → Nat → Nat → Nat → Str → Option Str
  | [], _, _, _, _, acc => some acc
  | c :: rest, foundPercentCode, percentCodeCursor, pc0, pc1, acc =>
    let code := c.toNat
    let indexOfChar : Int := jsIndexOfC tcpCharset c.toLower
    if foundPercentCode then
      if percentCodeCursor < 2 then
        if indexOfChar < 0 ∨ indexOfChar > 15 then none
        else if percentCodeCursor = 0 then
          formatPathGo rest true 1 indexOfChar.toNat pc1 acc
        else
          formatPathGo rest true 2 pc0 indexOfChar.toNat acc
      else
        if pc0 > 127 then none
        else formatPathGo rest true percentCodeCursor pc0 pc1 acc
    else if indexOfChar ≥ 0 then
      formatPathGo rest false percentCodeCursor pc0 pc1 (acc ++ [c])
    else if c = '%' then
      formatPathGo rest true 0 pc0 pc1 acc
    else if code ≤ 127 then
      formatPathGo rest false percentCodeCursor pc0 pc1
        (acc ++ ['%', hexDigit (code / 16), hexDigit (code % 16)])
    else none

/-- Validation/re-encoding of one path segment (`formattedPath`). -/
def formatPath (path : Str) : Option Str :=
  formatPathGo path false 0 0 0 []

/-- Processes the path segments after the authority segment in order,
concatenating `/` + the re-encoded segment; the first invalid segment
invalidates the URL. -/
def pathsFold : List Str → Option Str
  | [] => some []
  | p :: rest =>
    match formatPath p with
    | none => none
    | some fp => (pathsFold rest).map (fun r => ('/' :: fp) ++ r)

/-- Digit string to number; `parseInt` on an empty string is `NaN`
(`none`).  Only all-digit strings reach this call in the source. -/
def parseIntDigits : Str → Option Nat
  | [] => none
  | s => some (s.foldl (fun acc c => 10 * acc + (c.toNat - 48)) 0)

/-- AssemblyScript `f64 as i32` (saturating truncation) for the
non-negative port value. -/
def i32OfNat (n : Nat) : Int :=
  if n > 2147483647 then 2147483647 else (n : Int)

/-- The host/port block of `WebURL.from` (lines 311-370): given the
host-and-port text derived from the origin, either invalidates the URL
(`none`) or yields the host and the port (default `80` when no `:` is
present).  When a `:` is present: every port character must be a decimal
digit; a host starting with `[` is IPv6 syntax, which must end with `]`
and is unsupported (every such URL is invalidated); otherwise the port
text is converted to a number (`NaN` invalidates). -/
def hostPortOf (host0 : Str) : Option (Str × Int) :=
  let indexOfPort : Int := jsIndexOfC host0 ':'
  if indexOfPort ≥ 0 then
    let portString := jsSubstring host0 (indexOfPort.toNat + 1) host0.length
    let host := jsSubstring host0 0 indexOfPort.toNat
    let portStringNumbers := str "0123456789"
    if portString.any (fun c => decide (jsIndexOfC portStringNumbers c < 0)) then
      none
    else if (str "[").isPrefixOf host then
      if ¬ (str "]").isSuffixOf host then none
      else
        let ipv6String := jsSubstring host 1 (host.length - 1)
        let ipv6StringParts := splitC ipv6String ':'
        if ipv6StringParts.length < 2 ∨ ipv6StringParts.length > 8 then none
        else none
    else
      match parseIntDigits portString with
      | none => none
      | some parsedPort => some (host, i32OfNat parsedPort)
  else some (host0, 80)

/-- Rebuilds the query text from the search-parameter entries:
`key=value` pairs joined with `&` (the source's indexed loop). -/
def searchJoin : SMap → Str
  | [] => []
  | [(k, v)] => k ++ '=' :: v
  | (k, v) :: rest => (k ++ '=' :: v) ++ '&' :: searchJoin rest

/-- The fields computed by a successful parse, before the constructor
call that attaches `isValid = true`. -/
structure URLParts where
  protocol : Str
  username : Str
  password : Str
  href : Str
  origin : Str
  host : Str
  port : Int
  pathname : Str
  search : Str
  searchParams : SMap
  hash : Str
deriving DecidableEq

/-- Core of `WebURL.from` (lines 226-485): every invalidating early
return is `none`; the final construction (the only `some`) reaches the
constructor call that carries `isValid = true`.  The step order mirrors
the source: protocol gate, leading-`%` gate, hash split, query split,
authority split, credentials, host/port, path re-encoding, query
re-serialization, hash re-append. -/
def fromAux (raw : Str) : Option URLParts :=
  let protocolSeparator : Int := jsIndexOfS raw (str "//")
  if protocolSeparator < 0 then none
  else
    let protocol := jsSubstring raw 0 protocolSeparator.toNat
    let url := jsSubstring raw (protocol.length + 2) raw.length
    let origin := protocol ++ str "//"
    if (str "%").isPrefixOf url then none
    else
      let hashSeparator : Int := jsIndexOfC url '#'
      let hash := if hashSeparator ≥ 0 then
          jsSubstring url (hashSeparator.toNat + 1) url.length
        else []
      let url1 := if hashSeparator ≥ 0 then
          jsSubstring url 0 hashSeparator.toNat
        else url
      let querySeparator : Int := jsIndexOfC url1 '?'
      let searchParams : SMap := if querySeparator ≥ 0 then
          WebURL.parseSearchParams
            (jsSubstring url1 (querySeparator.toNat + 1) url1.length)
        else []
      let url2 := if querySeparator ≥ 0 then
          jsSubstring url1 0 querySeparator.toNat
        else url1
      let paths := splitC url2 '/'
      let firstPath := paths.headD []
      let credentialsSeparator : Int := jsIndexOfC firstPath '@'
      let credentials := jsSubstring firstPath 0 credentialsSeparator.toNat
      let usernameSeparator : Int := jsIndexOfC credentials ':'
      let username := if credentialsSeparator ≥ 0 then
          (if usernameSeparator ≥ 0 then
            jsSubstring credentials 0 usernameSeparator.toNat
          else credentials)
        else []
      let password := if credentialsSeparator ≥ 0 then
          (if usernameSeparator ≥ 0 then
            jsSubstring credentials (usernameSeparator.toNat + 1) credentials.length
          else [])
        else []
      let origin1 := if credentialsSeparator ≥ 0 then
          origin ++ jsSubstring firstPath (credentialsSeparator.toNat + 1) firstPath.length
        else origin ++ firstPath
      let href0 := origin1
      let host0 := jsSubstring origin1 (protocolSeparator.toNat + 2) origin1.length
      match hostPortOf host0 with
      | none => none
      | some (host, port) =>
        match pathsFold (paths.drop 1) with
        | none => none
        | some pathPart =>
          let pathname := pathPart
          let href1 := href0 ++ pathPart
          let search := if searchParams.length > 0 then
              '?' :: searchJoin searchParams
            else []
          let href2 := href1 ++ search
          let href3 := if hashSeparator ≥ 0 then href2 ++ '#' :: hash else href2
          some { protocol := protocol, username := username,
                 password := password, href := href3, origin := origin1,
                 host := host, port := port, pathname := pathname,
                 search := search, searchParams := searchParams, hash := hash }

/-- `WebURL.from`: every failure path yields the default-constructed
invalid `WebURL`; the success path calls the constructor with
`isValid = true`. -/
def WebURL.fromRaw (raw : Str) : WebURL :=
  match fromAux raw with
  | none => WebURL.invalid
  | some p => WebURL.make p.protocol p.username p.password p.href p.origin
      p.host p.port p.pathname p.search p.searchParams p.hash true

/-- The match result (`WebRoute` in the router source). -/
structure WebRoute where
  isValid : Bool
  params : SMap
  searchParams : SMap
  hash : Str
deriving DecidableEq

/-- Index of the first `?` of the *pattern* (`reference`), as the source
computes it (`qindex`). -/
def qindexOf (reference : Str) : Int := jsIndexOfC reference '?'

/-- Index of the first `#` of the *pattern* (`reference`), as the source
computes it (`hindex`). -/
def hindexOf (reference : Str) : Int := jsIndexOfC reference '#'

/-- The request path compared against the pattern (`rpath`): the request
line truncated at `min(qindex, hindex)` — indices found in the pattern —
when that minimum is non-negative, else the whole request line. -/
def rpathOf (reference path : Str) : Str :=
  let rindex : Int := min (qindexOf reference) (hindexOf reference)
  jsSubstring path 0 (if rindex ≥ 0 then rindex.toNat else path.length)

/-- The query text handed to the query codec (`searchParamString`): the
request line after position `qindex` — an index found in the pattern —
or empty when the pattern has no `?`. -/
def searchParamStringOf (reference path : Str) : Str :=
  if qindexOf reference ≥ 0 then
    jsSubstring path ((qindexOf reference).toNat + 1) path.length
  else []

/-- The hash text (`hashString`): the request line after position
`hindex` — an index found in the pattern — or empty when the pattern has
no `#`. -/
def hashStringOf (reference path : Str) : Str :=
  if hindexOf reference ≥ 0 then
    jsSubstring path ((hindexOf reference).toNat + 1) path.length
  else []

/-- The lock-step segment loop of `WebRoute.match` (lines 74-125): the
source iterates `i < min(|selfRoutes|, |matchRoutes|)` reading
`selfRoutes[i]` and `matchRoutes[i]`, which is exactly a traversal of
`selfRoutes.zip matchRoutes`.  Both segments are trimmed; a `:`-segment
captures the percent-decoded request segment (`none` models the
`decodeURIComponent` abort on malformed input); a `|`-segment succeeds
iff some trimmed alternative equals the request segment; `*` succeeds the
whole match; otherwise the trimmed segments must be equal.  Failure stops
the loop keeping the captures accumulated so far. -/
def matchLoop : List (Str × Str) → SMap → Option (Bool × SMap)
  | [], params => some (true, params)
  | (s, m) :: rest, params =>
    let selfMap := jsTrim s
    let matchMap := jsTrim m
    let pipeSeparator : Int := jsIndexOfC selfMap '|'
    if (str ":").isPrefixOf selfMap then
      let key := jsSubstring selfMap 1 selfMap.length
      match decodeURIComponent matchMap with
      | none => none
      | some v =>
        matchLoop rest (smapSet params (if key.length > 1 then key else ['_']) v)
    else if pipeSeparator ≥ 0 then
      let pipes := splitC selfMap '|'
      if pipes.any (fun pp => jsTrim pp == matchMap) then matchLoop rest params
      else some (false, params)
    else if selfMap = str "*" then some (true, params)
    else if selfMap = matchMap then matchLoop rest params
    else some (false, params)

/-- `WebRoute.match` (named `matchRoute` since `match` is reserved in
Lean): splits the pattern and the request path on `/`, runs the lock-step
segment loop, and assembles the result with the query/hash fields computed
unconditionally from `searchParamStringOf`/`hashStringOf`.  `none` models
the `decodeURIComponent` abort. -/
def WebRoute.matchRoute (reference path : Str) : Option WebRoute :=
  let selfRoutes := splitC reference '/'
  let matchRoutes := splitC (rpathOf reference path) '/'
  match matchLoop (selfRoutes.zip matchRoutes) [] with
  | none => none
  | some (isValid, params) =>
    some { isValid := isValid, params := params,
           searchParams := WebURL.parseSearchParams (searchParamStringOf reference path),
           hash := hashStringOf reference path }

/-- One position of the lock-step loop succeeds without a wildcard:
a `:`-segment whose request segment percent-decodes, a `|`-segment with a
matching trimmed alternative, or (not `*`) equal trimmed segments.  The
case split follows the branch order of the loop body. -/
def segOk (pr : Str × Str) : Bool :=
  let selfMap := jsTrim pr.1
  let matchMap := jsTrim pr.2
  if (str ":").isPrefixOf selfMap then (decodeURIComponent matchMap).isSome
  else if jsIndexOfC selfMap '|' ≥ 0 then
    (splitC selfMap '|').any (fun pp => jsTrim pp == matchMap)
  else if selfMap = str "*" then false
  else selfMap == matchMap

/-! Helper lemmas shared by the claim theorems. -/

/-- A character occurring in a string is found by `findIdxC`. -/
theorem findIdxC_of_mem {s : Str} {c : Char} (h : c ∈ s) :
    ∃ n, findIdxC s c = some n := by
  induction s with
  | nil => cases h
  | cons a rest ih =>
    by_cases hac : a = c
    · exact ⟨0, by simp [findIdxC, hac]⟩
    · rcases List.mem_cons.mp h with h | h
      · exact absurd h.symm hac
      · obtain ⟨m, hm⟩ := ih h
        exact ⟨m + 1, by simp [findIdxC, hac, hm]⟩

/-- `jsTrim` is left-trim followed by Mathlib's right-trim. -/
theorem jsTrim_eq (s : Str) :
    jsTrim s = List.rdropWhile wsp (s.dropWhile wsp) := rfl

/-- Dropping leading whitespace after dropping trailing whitespace of an
already left-trimmed string does nothing. -/
theorem dropWhile_rdropWhile_of_eq_self {u : Str}
    (h : List.dropWhile wsp u = u) :
    List.dropWhile wsp (List.rdropWhile wsp u) = List.rdropWhile wsp u := by
  cases hr : List.rdropWhile wsp u with
  | nil => simp
  | cons a t =>
    have hpre : List.rdropWhile wsp u <+: u := List.rdropWhile_prefix wsp u
    rw [hr] at hpre
    obtain ⟨rest, hrest⟩ := hpre
    subst hrest
    have ha : ¬ wsp a = true := by
      have h0 := List.dropWhile_eq_self_iff.mp h
      have hl : 0 < (a :: t ++ rest).length := by simp
      simpa using h0 hl
    simp [List.dropWhile_cons, ha]

/-- JS `trim` is idempotent. -/
theorem jsTrim_idem (s : Str) : jsTrim (jsTrim s) = jsTrim s := by
  rw [jsTrim_eq, jsTrim_eq]
  rw [dropWhile_rdropWhile_of_eq_self (List.dropWhile_idempotent wsp s)]
  exact List.rdropWhile_idempotent wsp _

/-- Zipping ignores the elements of the right list beyond the length of
the left list. -/
theorem zip_take_length_left (sr mr : List Str) :
    sr.zip (mr.take sr.length) = sr.zip mr := by
  induction sr generalizing mr with
  | nil => rfl
  | cons a t ih =>
    cases mr with
    | nil => rfl
    | cons b u => simp [List.zip_cons_cons, ih]

/-- The lock-step loop depends only on the trimmed segments: pre-trimming
every pattern and request segment does not change its result. -/
theorem matchLoop_trim (pairs : List (Str × Str)) (params : SMap) :
    matchLoop (pairs.map (fun pr => (jsTrim pr.1, jsTrim pr.2))) params
      = matchLoop pairs params := by
  induction pairs generalizing params with
  | nil => rfl
  | cons hd tl ih =>
    obtain ⟨s, m⟩ := hd
    simp only [List.map_cons, matchLoop, jsTrim_idem]
    split
    · split
      · rfl
      · exact ih _
    · split
      · split
        · exact ih _
        · rfl
      · split
        · rfl
        · split
          · exact ih _
          · rfl

/-- The lock-step loop aborts only at a `:`-capture whose trimmed request
segment fails to percent-decode; under the corresponding hypothesis it
always produces a result. -/
theorem matchLoop_isSome (pairs : List (Str × Str)) (params : SMap)
    (h : ∀ pr ∈ pairs, (str ":").isPrefixOf (jsTrim pr.1) = true →
      (decodeURIComponent (jsTrim pr.2)).isSome = true) :
    (matchLoop pairs params).isSome = true := by
  induction pairs generalizing params with
  | nil => rfl
  | cons hd tl ih =>
    obtain ⟨s, m⟩ := hd
    simp only [matchLoop]
    split
    case isTrue hpre =>
      have hdec := h (s, m) (List.mem_cons_self _ _) hpre
      cases hd : decodeURIComponent (jsTrim m) with
      | none => rw [hd] at hdec; cases hdec
      | some v =>
        simp only [hd]
        exact ih _ (fun pr hpr => h pr (List.mem_cons_of_mem _ hpr))
    case isFalse hpre =>
      split
      · split
        · exact ih _ (fun pr hpr => h pr (List.mem_cons_of_mem _ hpr))
        · rfl
      · split
        · rfl
        · split
          · exact ih _ (fun pr hpr => h pr (List.mem_cons_of_mem _ hpr))
          · rfl

/-- When every lock-step position succeeds without a wildcard, the loop
completes with a positive result. -/
theorem matchLoop_of_segOk (pairs : List (Str × Str)) (params : SMap)
    (h : ∀ pr ∈ pairs, segOk pr = true) :
    ∃ ps, matchLoop pairs params = some (true, ps) := by
  induction pairs generalizing params with
  | nil => exact ⟨params, rfl⟩
  | cons hd tl ih =>
    obtain ⟨s, m⟩ := hd
    have hok := h (s, m) (List.mem_cons_self _ _)
    have htl := fun pr hpr => h pr (List.mem_cons_of_mem _ hpr)
    simp only [matchLoop]
    simp only [segOk] at hok
    split
    case isTrue hpre =>
      rw [if_pos hpre] at hok
      cases hd : decodeURIComponent (jsTrim m) with
      | none => rw [hd] at hok; cases hok
      | some v => simp only [hd]; exact ih _ htl
    case isFalse hpre =>
      rw [if_neg hpre] at hok
      split
      case isTrue hpipe =>
        rw [if_pos hpipe] at hok
        simp only [hok, if_true]
        exact ih _ htl
      case isFalse hpipe =>
        rw [if_neg hpipe] at hok
        split
        case isTrue hstar => rw [if_pos hstar] at hok; cases hok
        case isFalse hstar =>
          rw [if_neg hstar] at hok
          have heq : jsTrim s = jsTrim m := by simpa using hok
          rw [if_pos heq]
          exact ih _ htl

/-- A `substring` starting at index `0` with a positive end index keeps
the first character. -/
theorem isPrefixOf_jsSubstring_zero (a : Char) (t : Str) (k : Nat) (hk : 1 ≤ k) :
    ([a] : Str).isPrefixOf (jsSubstring (a :: t) 0 k) = true := by
  unfold jsSubstring
  dsimp only
  have h1 : 1 ≤ min k (a :: t).length := by
    refine le_min hk ?_
    simp
  cases hmin : min k (a :: t).length with
  | zero => omega
  | succ n =>
    simp only [Nat.min_zero, Nat.zero_min, Nat.max_eq_right (Nat.zero_le _), List.drop_zero, hmin]
    simp [List.take, List.isPrefixOf]

/-- Any host-and-port candidate that starts with `[` and contains a `:`
is invalidated by the host/port block: either a port character is not a
digit, or the `[`-host enters the IPv6 branch, all of whose outcomes are
invalid. -/
theorem hostPortOf_bracket_colon {host0 : Str}
    (h1 : (str "[").isPrefixOf host0 = true) (h2 : ':' ∈ host0) :
    hostPortOf host0 = none := by
  cases host0 with
  | nil => cases h2
  | cons a t =>
    have ha : a = '[' := by
      have hcopy := h1
      simp [str, List.isPrefixOf] at hcopy
      exact hcopy.symm
    subst ha
    have ht : ':' ∈ t := by
      rcases List.mem_cons.mp h2 with h | h
      · exact absurd h (by decide)
      · exact h
    obtain ⟨m, hm⟩ := findIdxC_of_mem ht
    have hidx : jsIndexOfC ('[' :: t) ':' = ((m + 1 : Nat) : Int) := by
      simp [jsIndexOfC, findIdxC, hm]
    unfold hostPortOf
    rw [hidx]
    rw [if_pos (by positivity)]
    have htn : ((m + 1 : Nat) : Int).toNat = m + 1 := by simp
    rw [htn]
    have hpre : (str "[").isPrefixOf (jsSubstring ('[' :: t) 0 (m + 1)) = true :=
      isPrefixOf_jsSubstring_zero '[' t (m + 1) (Nat.le_add_left 1 m)
    dsimp only
    split
    · rfl
    · split
      · rfl
      · split
        · rfl
        · rfl

/-! Claim theorems. -/

/-- C1: the round-trip stability the specification asserts fails on the
code.  `p://h/a b` parses as valid with pathname and href `/a%20b`,
`p://h/a%20b`; re-parsing that href yields pathname `/a`: the `%20`
escape produced by the first normalization pass is consumed by the
percent-escape validator (which never re-emits and never leaves percent
mode) on the second pass, so pathname is not preserved. -/
theorem c1_roundtrip_code_bug :
    (WebURL.fromRaw (str "p://h/a b")).isValid = true ∧
    (WebURL.fromRaw (str "p://h/a b")).pathname = str "/a%20b" ∧
    (WebURL.fromRaw (str "p://h/a b")).href = str "p://h/a%20b" ∧
    (WebURL.fromRaw (WebURL.fromRaw (str "p://h/a b")).href).isValid = true ∧
    (WebURL.fromRaw (WebURL.fromRaw (str "p://h/a b")).href).pathname = str "/a" ∧
    (WebURL.fromRaw (WebURL.fromRaw (str "p://h/a b")).href).pathname ≠
      (WebURL.fromRaw (str "p://h/a b")).pathname := by
  refine ⟨by decide, by decide, by decide, by decide, by decide, by decide⟩

/-- C2: a space is re-encoded as `%20` when no `%` precedes it in the
segment, but a well-formed pre-encoded escape such as `%41` is not
re-emitted verbatim: the escape and everything after it in the segment
are dropped from `pathname` and `href` (the scanner consumes the escape
without appending it and never resets the percent-mode flag). -/
theorem c2_percent_verbatim_code_bug :
    (WebURL.fromRaw (str "p://h/x y")).pathname = str "/x%20y" ∧
    (WebURL.fromRaw (str "p://h/a%41b")).isValid = true ∧
    (WebURL.fromRaw (str "p://h/a%41b")).pathname = str "/a" ∧
    (WebURL.fromRaw (str "p://h/a%41b")).href = str "p://h/a" := by
  refine ⟨by decide, by decide, by decide, by decide⟩

/-- C3: a path escape whose decoded byte exceeds 127, such as `%FF`,
does not invalidate the URL: the guard compares `percentCode[0]` (a
single hex-digit value, at most 15) against 127, so it can never fire,
and the parse succeeds with the escape dropped. -/
theorem c3_decoded_byte_code_bug :
    (WebURL.fromRaw (str "p://h/%FF")).isValid = true ∧
    (WebURL.fromRaw (str "p://h/%FFx")).isValid = true ∧
    (WebURL.fromRaw (str "p://h/%FF")).pathname = str "/" := by
  refine ⟨by decide, by decide, by decide⟩

/-- C4 counterexample: matching pattern `:x` against request `%` aborts
(`none` models the `URIError` thrown by `decodeURIComponent` on the
malformed lone-percent segment), so `match` is not total. -/
theorem c4_match_aborts_counterexample :
    WebRoute.matchRoute (str ":x") (str "%") = none := by decide

/-- C4 amended: `match` returns a result for every pattern and request
line such that, at every lock-step position, a trimmed `:`-pattern
segment faces a request segment whose trimmed text percent-decodes
successfully; the capture's `decodeURIComponent` call is the only abort
point. -/
theorem c4_match_total_amended (reference path : Str)
    (h : ∀ pr ∈ (splitC reference '/').zip (splitC (rpathOf reference path) '/'),
      (str ":").isPrefixOf (jsTrim pr.1) = true →
      (decodeURIComponent (jsTrim pr.2)).isSome = true) :
    (WebRoute.matchRoute reference path).isSome = true := by
  unfold WebRoute.matchRoute
  dsimp only
  have hs := matchLoop_isSome _ [] h
  cases hm : matchLoop ((splitC reference '/').zip
      (splitC (rpathOf reference path) '/')) [] with
  | none => rw [hm] at hs; cases hs
  | some pr => obtain ⟨b, ps⟩ := pr; simp [hm]

/-- C4 witness: the amended totality at pattern `:x`, request `abc`. -/
theorem c4_match_total_witness :
    (∀ pr ∈ (splitC (str ":x") '/').zip (splitC (rpathOf (str ":x") (str "abc")) '/'),
      (str ":").isPrefixOf (jsTrim pr.1) = true →
      (decodeURIComponent (jsTrim pr.2)).isSome = true) ∧
    (WebRoute.matchRoute (str ":x") (str "abc")).isSome = true :=
  ⟨by decide, c4_match_total_amended (str ":x") (str "abc") (by decide)⟩

/-- C5 counterexample: for the claim's own example — pattern
`GET /say/:message` against request `GET /say/Hello%20World` — the
result's `searchParams` is not the empty map (it is the singleton
`parseSearchParams ""`), contradicting the claimed empty `queryParams`. -/
theorem c5_query_hash_counterexample :
    (WebRoute.matchRoute (str "GET /say/:message")
      (str "GET /say/Hello%20World")).map (fun r => r.searchParams) ≠
    some [] := by decide

/-- C5 amended: `searchParams` and `hash` are computed unconditionally
(identically whether or not the match succeeds), but from substrings of
the request line at the positions of the first `?` and `#` of the
*pattern*, not of the request line; a pattern without `?` always yields
`parseSearchParams ""` (the singleton empty-key map) and a pattern
without `#` always yields an empty hash.  The example yields
`matched = true`, the decoded capture, the singleton `searchParams` and
an empty hash. -/
theorem c5_query_hash_amended :
    (∀ reference path : Str,
      (WebRoute.matchRoute reference path).map (fun r => (r.searchParams, r.hash)) =
      (WebRoute.matchRoute reference path).map (fun _ =>
        (WebURL.parseSearchParams (searchParamStringOf reference path),
         hashStringOf reference path))) ∧
    WebRoute.matchRoute (str "GET /say/:message") (str "GET /say/Hello%20World") =
      some { isValid := true, params := [(str "message", str "Hello World")],
             searchParams := [([], [])], hash := [] } := by
  constructor
  · intro reference path
    unfold WebRoute.matchRoute
    dsimp only
    cases hm : matchLoop ((splitC reference '/').zip
        (splitC (rpathOf reference path) '/')) [] with
    | none => rfl
    | some pr => obtain ⟨b, ps⟩ := pr; rfl
  · decide

/-- C6 counterexample: `parseSearchParams ""` is not the empty map. -/
theorem c6_empty_query_counterexample :
    WebURL.parseSearchParams (str "") ≠ [] := by decide

/-- C6 amended: `parseSearchParams ""` returns the map with exactly one
entry, the empty key bound to the empty value (splitting `""` on `&`
yields the single token `""`), and does not signal an error. -/
theorem c6_empty_query_amended :
    WebURL.parseSearchParams (str "") = [([], [])] := by decide

/-- C7 counterexample: `p://[abc]` has a bracket host with no colon, so
the host/port block (and with it the IPv6 rejection) is skipped entirely
and the parse is valid — the claim's "always invalid" fails. -/
theorem c7_bracket_host_counterexample :
    (WebURL.fromRaw (str "p://[abc]")).isValid = true ∧
    (WebURL.fromRaw (str "p://[abc]")).host = str "[abc]" := by
  refine ⟨by decide, by decide⟩

/-- C7 amended: a host candidate beginning with `[` is invalidated
whenever it contains a `:` (every outcome of the port-digit check and of
the IPv6 branch is invalid), and concretely a well-formed bracket host
with a port is rejected; only a bracket host without any colon escapes
the check. -/
theorem c7_bracket_host_amended :
    (∀ host0 : Str, (str "[").isPrefixOf host0 = true → ':' ∈ host0 →
      hostPortOf host0 = none) ∧
    (WebURL.fromRaw (str "p://[aa]:80/x")).isValid = false :=
  ⟨fun _ h1 h2 => hostPortOf_bracket_colon h1 h2, by decide⟩

/-- C7 witness: the amended rejection at the bracket host `[a:b]`. -/
theorem c7_bracket_host_witness :
    ((str "[").isPrefixOf (str "[a:b]") = true ∧ ':' ∈ str "[a:b]") ∧
    hostPortOf (str "[a:b]") = none :=
  ⟨⟨by decide, by decide⟩,
    c7_bracket_host_amended.1 (str "[a:b]") (by decide) (by decide)⟩

/-- C8: fail-closed invariant.  Whenever `WebURL.from` returns a result
with `isValid = false`, that result is the default-constructed value:
protocol, username, password, href, origin, host, pathname, search and
hash are empty, the port is the default `0`, and the search-parameter
map is empty.  (The only `some` outcome of the parsing core reaches the
constructor call with `isValid = true`.) -/
theorem c8_fail_closed (raw : Str) (h : (WebURL.fromRaw raw).isValid = false) :
    (WebURL.fromRaw raw).protocol = [] ∧ (WebURL.fromRaw raw).username = [] ∧
    (WebURL.fromRaw raw).password = [] ∧ (WebURL.fromRaw raw).href = [] ∧
    (WebURL.fromRaw raw).origin = [] ∧ (WebURL.fromRaw raw).host = [] ∧
    (WebURL.fromRaw raw).pathname = [] ∧ (WebURL.fromRaw raw).search = [] ∧
    (WebURL.fromRaw raw).hash = [] ∧ (WebURL.fromRaw raw).port = 0 ∧
    (WebURL.fromRaw raw).searchParams = [] := by
  unfold WebURL.fromRaw at *
  cases hf : fromAux raw with
  | none => exact ⟨rfl, rfl, rfl, rfl, rfl, rfl, rfl, rfl, rfl, rfl, rfl⟩
  | some p => rw [hf] at h; cases h

/-- C8 witness: the fail-closed invariant at the schemeless input `x`. -/
theorem c8_fail_closed_witness :
    (WebURL.fromRaw (str "x")).isValid = false ∧
    ((WebURL.fromRaw (str "x")).protocol = [] ∧ (WebURL.fromRaw (str "x")).username = [] ∧
     (WebURL.fromRaw (str "x")).password = [] ∧ (WebURL.fromRaw (str "x")).href = [] ∧
     (WebURL.fromRaw (str "x")).origin = [] ∧ (WebURL.fromRaw (str "x")).host = [] ∧
     (WebURL.fromRaw (str "x")).pathname = [] ∧ (WebURL.fromRaw (str "x")).search = [] ∧
     (WebURL.fromRaw (str "x")).hash = [] ∧ (WebURL.fromRaw (str "x")).port = 0 ∧
     (WebURL.fromRaw (str "x")).searchParams = []) :=
  ⟨by decide, c8_fail_closed (str "x") (by decide)⟩

/-- C9: the lock-step bound.  First, the loop never examines request
segments beyond the pattern's segment count (truncating the request
segment list to that length changes nothing).  Second, a pattern whose
positions all succeed without a wildcard matches even when the request
path has additional trailing segments (pattern segment count at most the
request segment count), with `matched = true`. -/
theorem c9_lockstep_min_bound :
    (∀ (sr mr : List Str) (params : SMap),
      matchLoop (sr.zip (mr.take sr.length)) params = matchLoop (sr.zip mr) params) ∧
    (∀ reference path : Str,
      (splitC reference '/').length ≤ (splitC (rpathOf reference path) '/').length →
      (∀ pr ∈ (splitC reference '/').zip (splitC (rpathOf reference path) '/'),
        segOk pr = true) →
      (WebRoute.matchRoute reference path).map (fun r => r.isValid) = some true) := by
  constructor
  · intro sr mr params
    rw [zip_take_length_left]
  · intro reference path hlen hok
    unfold WebRoute.matchRoute
    dsimp only
    obtain ⟨ps, hps⟩ := matchLoop_of_segOk _ [] hok
    rw [hps]
    rfl

/-- C9 witness: pattern `GET /a` (two segments, no wildcard) against
request `GET /a/b/c` (four segments): matched, the two trailing request
segments never examined. -/
theorem c9_lockstep_witness :
    ((splitC (str "GET /a") '/').length ≤
      (splitC (rpathOf (str "GET /a") (str "GET /a/b/c")) '/').length ∧
     (∀ pr ∈ (splitC (str "GET /a") '/').zip
        (splitC (rpathOf (str "GET /a") (str "GET /a/b/c")) '/'),
       segOk pr = true)) ∧
    (WebRoute.matchRoute (str "GET /a") (str "GET /a/b/c")).map
      (fun r => r.isValid) = some true :=
  ⟨⟨by decide, by decide⟩,
    c9_lockstep_min_bound.2 (str "GET /a") (str "GET /a/b/c") (by decide) (by decide)⟩

/-- C10: the loop reads only the trimmed segments, of the request as
well as of the pattern (pre-trimming every segment changes nothing), and
a named-parameter capture stores the percent-decoded value of the
whitespace-trimmed request segment: ` Hello%20World ` is captured as
`Hello World`, and a whitespace-padded alternation segment ` b ` matches
the alternative `b`. -/
theorem c10_trim_and_capture :
    (∀ (pairs : List (Str × Str)) (params : SMap),
      matchLoop (pairs.map (fun pr => (jsTrim pr.1, jsTrim pr.2))) params
        = matchLoop pairs params) ∧
    (WebRoute.matchRoute (str "GET /say/:message")
      (str "GET /say/ Hello%20World ")).map (fun r => (r.isValid, r.params)) =
      some (true, [(str "message", str "Hello World")]) ∧
    (WebRoute.matchRoute (str "GET /a|b") (str "GET / b ")).map
      (fun r => r.isValid) = some true :=
  ⟨matchLoop_trim, by decide, by decide⟩
